import Mathlib

/-!
Verification of the RobinHood backend/iterator core against its
natural-language specification. The definitions below are a shallow
embedding of the C sources:

  * `rbh_parse_raw_uri`  — src/uri.c, RFC 3986 in-place URI split
  * `array_iter_next`, `chunk_iter_next`, `chunkify_iter_next`,
    `tee_iter_next` — src/uri.c iterator combinators (itertools part)
  * `mongo_bulk_append_fsevent`, `mongo_bulk_init_from_fsevents`,
    `mongo_backend_update`, `ROOT_FILTER`, `mongo_root`
    — src/backends/mongo/mongo.c

C's `errno` is threaded explicitly: every `next` function takes the
caller-visible errno and returns the errno after the call. External
collaborators (libmongoc, malloc, the byte queue) are modelled with
explicit success/failure oracles so that every failure path of the C
code is reachable in the model.
-/

/-! ### errno values (from errno.h, as used by the C sources) -/

def ENOENT : Nat := 2
def EAGAIN : Nat := 11
def ENOMEM : Nat := 12
def EINVAL : Nat := 22
def ENODATA : Nat := 61
def ENOBUFS : Nat := 105

/-- Modelled from the spec: `RBH_BACKEND_ERROR` is declared in
robinhood/backend.h, which is not under src/; the spec only requires a
typed `backend-error` kind distinct from the ordinary errno values. -/
def RBH_BACKEND_ERROR : Nat := 1024

/-! ### URI parser (src/uri.c, `rbh_parse_raw_uri`)

The C function splits a mutable buffer in place, replacing separators
with terminators; each component of the result is then a clean
substring. The embedding works on `List Char` and returns the
components directly; `none` models a NULL field of `struct rbh_raw_uri`
(the struct is zeroed with memset before parsing). -/

def uriIsAlpha (c : Char) : Bool :=
  ('A' ≤ c && c ≤ 'Z') || ('a' ≤ c && c ≤ 'z')

def uriIsDigit (c : Char) : Bool :=
  '0' ≤ c && c ≤ '9'

def uriIsAlnum (c : Char) : Bool :=
  uriIsAlpha c || uriIsDigit c

/-- scheme = ALPHA *( ALPHA / DIGIT / "+" / "-" / "." ) -/
def isSchemeChar (c : Char) : Bool :=
  uriIsAlnum c || c = '+' || c = '-' || c = '.'

/-- C `strrchr`: split a char list at the LAST occurrence of `sep`.
Returns the part before the separator and, when the separator occurs,
the part after it. -/
def splitLast (sep : Char) (s : List Char) : List Char × Option (List Char) :=
  let rev := s.reverse
  let pre := rev.takeWhile (fun c => c ≠ sep)
  if pre.length = rev.length then (s, none)
  else ((rev.drop (pre.length + 1)).reverse, some pre.reverse)

/-- C `strchr`: split a char list at the FIRST occurrence of `sep`. -/
def splitFirst (sep : Char) (s : List Char) : List Char × Option (List Char) :=
  let pre := s.takeWhile (fun c => c ≠ sep)
  if pre.length = s.length then (s, none)
  else (pre, some (s.drop (pre.length + 1)))

/-- The `struct rbh_raw_uri` record: borrowed slices into the parsed buffer;
`none` is a NULL pointer. -/
structure RbhRawUri where
  scheme : Option (List Char)
  userinfo : Option (List Char)
  host : Option (List Char)
  port : Option (List Char)
  path : Option (List Char)
  query : Option (List Char)
  fragment : Option (List Char)
deriving DecidableEq, Repr

/-- src/uri.c `rbh_parse_raw_uri`. `none` models the -1/EINVAL return. -/
def rbh_parse_raw_uri (s : List Char) : Option RbhRawUri :=
  match s with
  | [] => none
  | c0 :: rest =>
    if uriIsAlpha c0 = false then none
    else
      let schemeTail := rest.takeWhile isSchemeChar
      let afterScheme := rest.drop schemeTail.length
      match afterScheme with
      | ':' :: s1 =>
        let scheme := c0 :: schemeTail
        let (s2, fragment) := splitLast '#' s1
        let (s3, query) := splitLast '?' s2
        match s3 with
        | '/' :: '/' :: s4 =>
          let authority := s4.takeWhile (fun c => c ≠ '/')
          let path := s4.drop authority.length
          if authority = [] then
            some ⟨some scheme, none, none, none, some s4, query, fragment⟩
          else
            let (beforeAt, afterAt) := splitFirst '@' authority
            let userinfo := if afterAt.isSome then some beforeAt else none
            let hostport := afterAt.getD authority
            let (hostPart, port) := splitLast ':' hostport
            let host := if hostPart = [] then none else some hostPart
            some ⟨some scheme, userinfo, host, port, some path, query, fragment⟩
        | _ =>
          some ⟨some scheme, none, none, none, some s3, query, fragment⟩
      | _ => none

/-! ### Iterator protocol (src/uri.c, itertools part)

A C `rbh_iterator` yields `const void *`: an element, or NULL with
errno = ENODATA (end) or errno = some failure. An arbitrary underlying
stream is embedded as a *script*: the list of outcomes its successive
`next` calls produce, followed by ENODATA forever. A script of plain
`yield`s is an ordinary finite sequence. -/

inductive ScriptStep (α : Type) where
  | yield (a : α)
  | fault (e : Nat)
deriving DecidableEq, Repr

/-- One `rbh_iter_next` call on an underlying stream: takes the current
errno, returns (element-or-NULL, rest of stream, errno after). A
`yield` leaves errno alone; a `fault e` returns NULL and sets errno to
`e`; an exhausted stream returns NULL and sets ENODATA. -/
def script_next {α : Type} : List (ScriptStep α) → Nat → Option α × List (ScriptStep α) × Nat
  | [], _ => (none, [], ENODATA)
  | ScriptStep.yield a :: rest, e => (some a, rest, e)
  | ScriptStep.fault f :: rest, _ => (none, rest, f)

/-- The stream that yields exactly the elements of `l`, then ends. -/
def pureScript {α : Type} (l : List α) : List (ScriptStep α) :=
  l.map ScriptStep.yield

/-- Is the head step a failure with errno 0 (a misbehaving stream)?
The C iterator contract forbids it; `wf_head s = true` rules it out. -/
def wf_head {α : Type} : List (ScriptStep α) → Bool
  | ScriptStep.fault f :: _ => f != 0
  | _ => true

/-! #### array iterator (`rbh_iter_array`) -/

/-- The `struct array_iterator` state: a contiguous region of `count` elements,
embedded as the element list, plus the running index. -/
structure ArrayIterator (α : Type) where
  array : List α
  index : Nat
deriving DecidableEq, Repr

/-- src/uri.c `array_iter_next`. -/
def array_iter_next {α : Type} (it : ArrayIterator α) (e : Nat) :
    Option α × ArrayIterator α × Nat :=
  if h : it.index < it.array.length then
    (some (it.array.get ⟨it.index, h⟩), ⟨it.array, it.index + 1⟩, e)
  else
    (none, it, ENODATA)

/-! #### chunkify (`rbh_iter_chunkify`)

`chunkify_iter_next` produces chunk iterators; the chunk iterators and
the chunkify iterator share one underlying stream (`chunk->subiter ==
chunkify->subiter` in C), so the stream state is threaded alongside
both. -/

/-- The `struct chunk_iterator` state without the shared `subiter` pointer, which
is threaded explicitly. -/
structure ChunkIterator (α : Type) where
  first : Option α
  count : Nat
  once : Bool
deriving DecidableEq, Repr

/-- src/uri.c `chunk_iter_next`: yield the stored first element once,
then up to `count` further elements pulled from the shared stream,
saving and restoring the caller's errno around the pull. -/
def chunk_iter_next {α : Type} (c : ChunkIterator α) (sub : List (ScriptStep α))
    (e : Nat) : Option α × ChunkIterator α × List (ScriptStep α) × Nat :=
  if c.once = false then
    (c.first, ⟨c.first, c.count, true⟩, sub, e)
  else if c.count = 0 then
    (none, c, sub, ENODATA)
  else
    match script_next sub 0 with
    | (r, sub1, e1) =>
      let c1 := if r.isSome || e1 == 0 then ⟨c.first, c.count - 1, true⟩ else c
      (r, c1, sub1, if e1 == 0 then e else e1)

/-- src/uri.c `chunkify_iter_next`: pull one element from the shared
stream; on NULL-with-error propagate, otherwise build a fresh chunk
iterator holding that element as `first` with `count = chunk - 1`.
(The successful-malloc path is embedded; an allocation failure of the
chunk struct is a plain NULL return that issues nothing.) -/
def chunkify_iter_next {α : Type} (k : Nat) (sub : List (ScriptStep α)) (e : Nat) :
    Option (ChunkIterator α) × List (ScriptStep α) × Nat :=
  match script_next sub 0 with
  | (first, sub1, e1) =>
    if first.isNone && (e1 != 0) then (none, sub1, e1)
    else (some ⟨first, k - 1, false⟩, sub1, e)

/-- src/uri.c `rbh_iter_chunkify`: `chunk = 0` fails with EINVAL. -/
def rbh_iter_chunkify (chunk : Nat) (e : Nat) : Option Nat × Nat :=
  if chunk = 0 then (none, EINVAL) else (some chunk, e)

/-- Drive one chunk iterator to exhaustion: call `chunk_iter_next`
until it returns NULL, collecting the yielded elements. `fuel` bounds
the recursion; `count + 2` calls always suffice. -/
def drain_chunk {α : Type} : Nat → ChunkIterator α → List (ScriptStep α) → Nat →
    List α × List (ScriptStep α) × Nat
  | 0, _, sub, e => ([], sub, e)
  | fuel + 1, c, sub, e =>
    match chunk_iter_next c sub e with
    | (none, _, sub1, e1) => ([], sub1, e1)
    | (some x, c1, sub1, e1) =>
      match drain_chunk fuel c1 sub1 e1 with
      | (xs, sub2, e2) => (x :: xs, sub2, e2)

/-- The well-behaved client of chunkify: request a chunk, exhaust it,
request the next chunk, until the outer iterator ends. -/
def run_chunkify {α : Type} : Nat → Nat → List (ScriptStep α) → Nat →
    List (List α) × List (ScriptStep α) × Nat
  | 0, _, sub, e => ([], sub, e)
  | fuel + 1, k, sub, e =>
    match chunkify_iter_next k sub e with
    | (none, sub1, e1) => ([], sub1, e1)
    | (some c, sub1, e1) =>
      match drain_chunk (k + 1) c sub1 e1 with
      | (xs, sub2, e2) =>
        match run_chunkify fuel k sub2 e2 with
        | (css, sub3, e3) => (xs :: css, sub3, e3)

/-! #### tee (`rbh_iter_tee`)

Two linked `struct tee_iterator`s share one underlying stream. Each
side owns a byte queue of elements the *other* side read ahead, and a
`next` slot holding an element whose queueing failed. The C queue
stores `const void *` values, so queue entries and the `next` slot are
`Option α` with `none` standing for a NULL pointer. -/

/-- One side of a tee (`struct tee_iterator` without the shared
subiter/clone pointers, which are threaded explicitly). -/
structure TeeSide (α : Type) where
  queue : List (Option α)
  next : Option α
deriving DecidableEq, Repr

/-- Modelled from the spec: `rbh_queue` (robinhood/queue.h, source not
under src/) is a FIFO; a push appends and can fail only with
out-of-memory. The `ok` oracle decides whether this push's allocation
succeeds; on failure the push returns NULL and errno is ENOMEM. -/
def rbh_queue_push {α : Type} (ok : Bool) (q : List (Option α)) (x : Option α)
    (e : Nat) : Option (List (Option α)) × Nat :=
  if ok then (some (q ++ [x]), e) else (none, ENOMEM)

/-- src/uri.c `_tee_iter_next`: consume the pending `next` slot if set,
otherwise read the shared stream. Called with errno already set to 0
by `tee_iter_next`. -/
def _tee_iter_next {α : Type} (self : TeeSide α) (sub : List (ScriptStep α)) :
    Option α × TeeSide α × List (ScriptStep α) × Nat :=
  match self.next with
  | some x => (some x, ⟨self.queue, none⟩, sub, 0)
  | none =>
    match script_next sub 0 with
    | (el, sub1, e1) => (el, self, sub1, e1)

/-- The tail of `tee_iter_next` after the queue-peek and the deferred
retry: read an element (errno saved as `save`), propagate
NULL-with-error, otherwise share the element onto the other side's
queue, parking it in the other side's `next` slot when the push fails,
and return it with errno restored. -/
def tee_read_phase {α : Type} (ok2 : Bool) (self other : TeeSide α)
    (sub : List (ScriptStep α)) (save : Nat) :
    Option α × TeeSide α × TeeSide α × List (ScriptStep α) × Nat :=
  match _tee_iter_next self sub with
  | (el, self1, sub1, e1) =>
    if el.isNone && (e1 != 0) then (none, self1, other, sub1, e1)
    else
      match rbh_queue_push ok2 other.queue el e1 with
      | (some q2, _) => (el, self1, ⟨q2, other.next⟩, sub1, save)
      | (none, _) => (el, self1, ⟨other.queue, el⟩, sub1, save)

/-- src/uri.c `tee_iter_next` for the side `self` whose clone is
`other`: pop the own queue if non-empty; else if the other side has a
parked element, retry pushing it onto the other side's queue (failing
the whole call if the push fails again); then read and share. `ok1`
and `ok2` are the allocation oracles of the two possible queue pushes
of this call. -/
def tee_iter_next {α : Type} (ok1 ok2 : Bool) (self other : TeeSide α)
    (sub : List (ScriptStep α)) (e : Nat) :
    Option α × TeeSide α × TeeSide α × List (ScriptStep α) × Nat :=
  match self.queue with
  | x :: rest => (x, ⟨rest, self.next⟩, other, sub, e)
  | [] =>
    match other.next with
    | some p =>
      match rbh_queue_push ok1 other.queue (some p) e with
      | (none, e1) => (none, self, other, sub, e1)
      | (some q1, _) => tee_read_phase ok2 self ⟨q1, none⟩ sub e
    | none => tee_read_phase ok2 self other sub e

/-- The linked pair built by `rbh_iter_tee`, with the shared stream. -/
structure TeeState (α : Type) where
  sub : List (ScriptStep α)
  a : TeeSide α
  b : TeeSide α
deriving DecidableEq, Repr

/-- Advance one sibling of the pair (`who = true` is side a). -/
def teeStep {α : Type} (who ok1 ok2 : Bool) (st : TeeState α) (e : Nat) :
    Option α × TeeState α × Nat :=
  if who then
    match tee_iter_next ok1 ok2 st.a st.b st.sub e with
    | (r, a1, b1, sub1, e1) => (r, ⟨sub1, a1, b1⟩, e1)
  else
    match tee_iter_next ok1 ok2 st.b st.a st.sub e with
    | (r, b1, a1, sub1, e1) => (r, ⟨sub1, a1, b1⟩, e1)

/-- Run a sequence of sibling calls `(who, ok1, ok2)` and collect the
elements each sibling observed, in order. -/
def runTee {α : Type} : List (Bool × Bool × Bool) → TeeState α → Nat →
    List α × List α × TeeState α × Nat
  | [], st, e => ([], [], st, e)
  | (who, ok1, ok2) :: rest, st, e =>
    match teeStep who ok1 ok2 st e with
    | (r, st1, e1) =>
      match runTee rest st1 e1 with
      | (oa, ob, st2, e2) =>
        if who then (r.toList ++ oa, ob, st2, e2)
        else (oa, r.toList ++ ob, st2, e2)

/-- A fresh tee over the stream of the elements of `l`
(`rbh_iter_tee`: both queues empty, both `next` slots NULL). -/
def freshTee {α : Type} (l : List α) : TeeState α :=
  ⟨pureScript l, ⟨[], none⟩, ⟨[], none⟩⟩

/-- The elements the lagging sibling still has queued: positions
`i ≤ j` of `l`, as the queue stores them (non-NULL pointers). -/
def sliceQ {α : Type} (l : List α) (i j : Nat) : List (Option α) :=
  ((l.drop i).take (j - i)).map some

/-! ### Mongo backend (src/backends/mongo/mongo.c)

The libmongoc driver and the BSON builders (robinhood bson helpers,
declared in mongo.h but implemented outside src/) are external
collaborators: bulk sub-operations are recorded symbolically and each
fallible driver/builder call gets a success oracle. -/

/-- Modelled from the spec: the fsevent variants (robinhood/fsevent.h
is not under src/) — delete, link, unlink, statx upsert, namespace and
inode xattrs; mongo.c switches on DELETE, LINK and treats the rest
uniformly with upsert = (type != UNLINK). -/
inductive RbhFseventType where
  | RBH_FET_UPSERT
  | RBH_FET_DELETE
  | RBH_FET_LINK
  | RBH_FET_UNLINK
  | RBH_FET_NS_XATTR
  | RBH_FET_INODE_XATTR
deriving DecidableEq, Repr

/-- The `struct rbh_fsevent` record: target id, variant, and the
`{parent_id, name}` payload of link/unlink variants. -/
structure RbhFsevent where
  type : RbhFseventType
  id : List Nat
  linkParent : List Nat
  linkName : List Char
deriving DecidableEq, Repr

/-- The BSON update document of a bulk update sub-operation, recorded
symbolically: `fromUnlink p n` is `bson_from_unlink(p, n)` (removes the
namespace edge {p, n}); `fromFsevent ev` is
`bson_update_from_fsevent(ev)`. The builders are not under src/. -/
inductive MongoUpdateDoc where
  | fromUnlink (parent : List Nat) (name : List Char)
  | fromFsevent (ev : RbhFsevent)
deriving DecidableEq, Repr

/-- One sub-operation appended to the mongoc bulk, with the id-equality
selector recorded by its target id. -/
inductive MongoBulkOp where
  | removeOne (selectorId : List Nat)
  | updateOne (selectorId : List Nat) (update : MongoUpdateDoc) (upsert : Bool)
deriving DecidableEq, Repr

/-- Success oracles for the fallible calls of one
`mongo_bulk_append_fsevent` invocation. -/
structure MongoAppendOracle where
  selectorOk : Bool
  unlinkBsonOk : Bool
  unlinkOpOk : Bool
  updateBsonOk : Bool
  opOk : Bool
deriving DecidableEq, Repr

def allOkAppend : MongoAppendOracle := ⟨true, true, true, true, true⟩

/-- src/backends/mongo/mongo.c `mongo_bulk_append_fsevent`: lower one
fsevent to bulk sub-operations appended in order. Returns the C bool,
the bulk contents after the call, and errno (builder failures set the
spec's out-of-memory; a refused driver op sets EINVAL as in the C). -/
def mongo_bulk_append_fsevent (o : MongoAppendOracle) (bulk : List MongoBulkOp)
    (ev : RbhFsevent) (e : Nat) : Bool × List MongoBulkOp × Nat :=
  if o.selectorOk = false then (false, bulk, ENOBUFS)
  else
    match ev.type with
    | RbhFseventType.RBH_FET_DELETE =>
      if o.opOk then (true, bulk ++ [MongoBulkOp.removeOne ev.id], e)
      else (false, bulk, EINVAL)
    | RbhFseventType.RBH_FET_LINK =>
      if o.unlinkBsonOk = false then (false, bulk, ENOMEM)
      else if o.unlinkOpOk = false then (false, bulk, EINVAL)
      else
        let bulk1 := bulk ++
          [MongoBulkOp.updateOne ev.id
            (MongoUpdateDoc.fromUnlink ev.linkParent ev.linkName) false]
        if o.updateBsonOk = false then (false, bulk1, ENOMEM)
        else if o.opOk then
          (true, bulk1 ++ [MongoBulkOp.updateOne ev.id (MongoUpdateDoc.fromFsevent ev) true], e)
        else (false, bulk1, EINVAL)
    | t =>
      if o.updateBsonOk = false then (false, bulk, ENOMEM)
      else if o.opOk then
        (true, bulk ++ [MongoBulkOp.updateOne ev.id (MongoUpdateDoc.fromFsevent ev)
          (decide (t ≠ RbhFseventType.RBH_FET_UNLINK))], e)
      else (false, bulk, EINVAL)

/-- The `fsevent_for_each` loop body of `mongo_bulk_init_from_fsevents`
over the listed events: `none` as first component means some append
failed (loop aborted), otherwise the count of appended events. -/
def mongo_bulk_append_all (bulk : List MongoBulkOp)
    (evs : List (RbhFsevent × MongoAppendOracle)) (e : Nat) :
    Option Nat × List MongoBulkOp × Nat :=
  match evs with
  | [] => (some 0, bulk, e)
  | (ev, o) :: rest =>
    match mongo_bulk_append_fsevent o bulk ev e with
    | (false, bulk1, e1) => (none, bulk1, e1)
    | (true, bulk1, e1) =>
      match mongo_bulk_append_all bulk1 rest e1 with
      | (none, bulk2, e2) => (none, bulk2, e2)
      | (some n, bulk2, e2) => (some (n + 1), bulk2, e2)

/-- An event iterator handed to `update`: the events it yields (each
with the oracle of its lowering) and how it ends — `none` is a clean
ENODATA end, `some f` an iterator failure with errno `f`. -/
structure MongoEventStream where
  events : List (RbhFsevent × MongoAppendOracle)
  endErrno : Option Nat
deriving DecidableEq, Repr

/-- src/backends/mongo/mongo.c `mongo_bulk_init_from_fsevents`:
`-1` with errno on any failure, else the number of appended events with
the caller's errno restored. -/
def mongo_bulk_init_from_fsevents (bulk : List MongoBulkOp)
    (st : MongoEventStream) (e : Nat) : Int × List MongoBulkOp × Nat :=
  match mongo_bulk_append_all bulk st.events 0 with
  | (none, bulk1, e1) => (-1, bulk1, e1)
  | (some n, bulk1, _) =>
    match st.endErrno with
    | some f => (-1, bulk1, f)
    | none => (Int.ofNat n, bulk1, e)

/-- Outcome of `mongoc_bulk_operation_execute`, as the driver reports
it: success, or a failure with a message and the presence of the
TransientTransactionError label on the reply. -/
inductive MongoExecResult where
  | success
  | failure (message : List Char) (transient : Bool)
deriving DecidableEq, Repr

/-- Oracles for one `mongo_backend_update` call: whether the bulk
handle allocation succeeds, and what the driver reports when the bulk
is executed. -/
structure MongoUpdateOracle where
  bulkCreateOk : Bool
  exec : MongoExecResult
deriving DecidableEq, Repr

/-- Observable outcome of `mongo_backend_update`: the ssize_t return,
errno, the bulk that was handed to `mongoc_bulk_operation_execute`
(`none` when no bulk was executed), and the driver message captured in
`rbh_backend_error`. -/
structure MongoUpdateOutcome where
  ret : Int
  err : Nat
  executed : Option (List MongoBulkOp)
  backendMessage : Option (List Char)
deriving DecidableEq, Repr

def mongocTag : List Char := (r"mongoc: ").toList

/-- src/backends/mongo/mongo.c `mongo_backend_update`. -/
def mongo_backend_update (o : MongoUpdateOracle) (st : MongoEventStream)
    (e : Nat) : MongoUpdateOutcome :=
  if o.bulkCreateOk = false then ⟨-1, ENOMEM, none, none⟩
  else
    match mongo_bulk_init_from_fsevents [] st e with
    | (count, bulk, e1) =>
      if count ≤ 0 then ⟨count, e1, none, none⟩
      else
        match o.exec with
        | MongoExecResult.success => ⟨count, e1, some bulk, none⟩
        | MongoExecResult.failure msg transient =>
          ⟨-1, if transient then EAGAIN else RBH_BACKEND_ERROR, some bulk,
           some (mongocTag ++ msg)⟩

/-! #### root (`mongo_root` / `ROOT_FILTER`) -/

/-- The filter fields the root query touches (robinhood/filter.h is
not under src/; only the constants used by `ROOT_FILTER` are needed). -/
inductive RbhFilterField where
  | RBH_FP_ID
  | RBH_FP_PARENT_ID
  | RBH_FP_NAME
deriving DecidableEq, Repr

inductive RbhValue where
  | binary (bytes : List Nat)
  | string (s : List Char)
deriving DecidableEq, Repr

inductive RbhFilterOp where
  | RBH_FOP_EQUAL
deriving DecidableEq, Repr

/-- A comparison filter node (the shape `ROOT_FILTER` uses). -/
structure RbhFilter where
  op : RbhFilterOp
  field : RbhFilterField
  value : RbhValue
deriving DecidableEq, Repr

/-- src/backends/mongo/mongo.c `ROOT_FILTER`: equality of `parent_id`
against a zero-length binary value. -/
def ROOT_FILTER : RbhFilter :=
  ⟨RbhFilterOp.RBH_FOP_EQUAL, RbhFilterField.RBH_FP_PARENT_ID, RbhValue.binary []⟩

/-- A stored entry, with the fields the root query touches. -/
structure RbhFsentry where
  id : List Nat
  parentId : List Nat
  name : List Char
deriving DecidableEq, Repr

/-- Modelled from the spec: the evaluation of a comparison filter
against an entry is performed by the external document database; an
equality filter matches when the addressed field equals the value. -/
def rbh_filter_matches (f : RbhFilter) (x : RbhFsentry) : Bool :=
  match f.op, f.field, f.value with
  | RbhFilterOp.RBH_FOP_EQUAL, RbhFilterField.RBH_FP_ID, RbhValue.binary b =>
      decide (x.id = b)
  | RbhFilterOp.RBH_FOP_EQUAL, RbhFilterField.RBH_FP_PARENT_ID, RbhValue.binary b =>
      decide (x.parentId = b)
  | RbhFilterOp.RBH_FOP_EQUAL, RbhFilterField.RBH_FP_NAME, RbhValue.string s =>
      decide (x.name = s)
  | _, _, _ => false

/-- Modelled from the spec: `rbh_backend_filter_one` (backend.c is not
under src/) wraps `filter_entries`, pulls one element, destroys the
iterator and returns `no-such-entry` (ENOENT) when it is empty. The
store is the list of entries in iteration order. -/
def rbh_backend_filter_one (store : List RbhFsentry) (f : RbhFilter) :
    Except Nat RbhFsentry :=
  match (store.filter (rbh_filter_matches f)).head? with
  | some x => Except.ok x
  | none => Except.error ENOENT

/-- src/backends/mongo/mongo.c `mongo_root`: delegate to `filter_one`
with `ROOT_FILTER`; the two masks are passed through (they only bound
the projection, which the external driver applies). -/
def mongo_root (store : List RbhFsentry) (_fsentryMask _statxMask : Nat) :
    Except Nat RbhFsentry :=
  rbh_backend_filter_one store ROOT_FILTER

/-- C8: parsing `mongo://user:pw@db.example:27017/rbh?x=1#f` succeeds and
yields scheme `mongo`, userinfo `user:pw`, host `db.example`, port
`27017`, path `/rbh`, query `x=1` and fragment `f`, each a clean
(separator-free) component of the input. -/
theorem c8_uri_scenario :
    rbh_parse_raw_uri ((r"mongo://user:pw@db.example:27017/rbh?x=1#f").toList) =
      some ⟨some ((r"mongo").toList), some ((r"user:pw").toList),
            some ((r"db.example").toList), some ((r"27017").toList),
            some ((r"/rbh").toList), some ((r"x=1").toList),
            some ((r"f").toList)⟩ := by
  decide

/-! ### Helper lemmas -/

/-- With an all-success oracle, lowering any fsevent appends its
sub-operations and reports success, leaving errno unchanged. -/
theorem append_fsevent_allOk (bulk : List MongoBulkOp) (ev : RbhFsevent) (e : Nat) :
    ∃ ops, mongo_bulk_append_fsevent allOkAppend bulk ev e = (true, bulk ++ ops, e) := by
  cases htype : ev.type <;>
    simp [mongo_bulk_append_fsevent, allOkAppend, htype, List.append_assoc]

/-- With all-success oracles, the whole event list is lowered and
counted, with errno preserved. -/
theorem append_all_allOk (evs : List (RbhFsevent × MongoAppendOracle)) :
    ∀ (bulk : List MongoBulkOp) (e : Nat), (∀ p ∈ evs, p.2 = allOkAppend) →
      ∃ bulk2, mongo_bulk_append_all bulk evs e = (some evs.length, bulk2, e) := by
  induction evs with
  | nil => exact fun bulk e _ => ⟨bulk, rfl⟩
  | cons p rest ih =>
    intro bulk e h
    obtain ⟨ev, o⟩ := p
    have ho : o = allOkAppend := h (ev, o) (List.mem_cons_self _ _)
    subst ho
    obtain ⟨ops, hops⟩ := append_fsevent_allOk bulk ev e
    obtain ⟨bulk2, h2⟩ := ih (bulk ++ ops) e (fun q hq => h q (List.mem_cons_of_mem _ hq))
    exact ⟨bulk2, by simp [mongo_bulk_append_all, hops, h2]⟩

/-! ### Claim C1 -/

/-- C1: a link fsevent is lowered to an adjacent ordered pair of bulk
sub-operations on the target id: first an update-one WITHOUT upsert
whose document is `bson_from_unlink(parent_id, name)` (the idempotent
removal of the namespace edge), immediately followed by an update-one
WITH upsert whose document is `bson_update_from_fsevent` (adding the
namespace edge); if building or issuing the unlink sub-operation
fails, nothing is appended (in particular no link sub-operation) and
the lowering reports failure. -/
theorem c1_link_lowering (bulk : List MongoBulkOp) (ev : RbhFsevent)
    (o : MongoAppendOracle) (e : Nat)
    (htype : ev.type = RbhFseventType.RBH_FET_LINK) (hsel : o.selectorOk = true) :
    (o.unlinkBsonOk = true ∧ o.unlinkOpOk = true ∧ o.updateBsonOk = true ∧
        o.opOk = true →
      mongo_bulk_append_fsevent o bulk ev e =
        (true,
         bulk ++
           [MongoBulkOp.updateOne ev.id
              (MongoUpdateDoc.fromUnlink ev.linkParent ev.linkName) false,
            MongoBulkOp.updateOne ev.id (MongoUpdateDoc.fromFsevent ev) true],
         e)) ∧
    (o.unlinkBsonOk = false ∨ o.unlinkOpOk = false →
      (mongo_bulk_append_fsevent o bulk ev e).1 = false ∧
      (mongo_bulk_append_fsevent o bulk ev e).2.1 = bulk) := by
  constructor
  · rintro ⟨h1, h2, h3, h4⟩
    simp [mongo_bulk_append_fsevent, hsel, htype, h1, h2, h3, h4]
  · intro h
    cases hub : o.unlinkBsonOk with
    | false => simp [mongo_bulk_append_fsevent, hsel, htype, hub]
    | true =>
      have h2 : o.unlinkOpOk = false := by
        rcases h with h | h
        · rw [h] at hub; cases hub
        · exact h
      simp [mongo_bulk_append_fsevent, hsel, htype, hub, h2]

/-- Witness for C1 at a concrete link event with the all-success
oracle. -/
theorem c1_link_lowering_witness :
    (RbhFsevent.mk RbhFseventType.RBH_FET_LINK [1] [2] ['a']).type =
        RbhFseventType.RBH_FET_LINK ∧
    allOkAppend.selectorOk = true ∧
    ((allOkAppend.unlinkBsonOk = true ∧ allOkAppend.unlinkOpOk = true ∧
        allOkAppend.updateBsonOk = true ∧ allOkAppend.opOk = true →
      mongo_bulk_append_fsevent allOkAppend []
          (RbhFsevent.mk RbhFseventType.RBH_FET_LINK [1] [2] ['a']) 0 =
        (true,
         [] ++
           [MongoBulkOp.updateOne [1] (MongoUpdateDoc.fromUnlink [2] ['a']) false,
            MongoBulkOp.updateOne [1]
              (MongoUpdateDoc.fromFsevent
                (RbhFsevent.mk RbhFseventType.RBH_FET_LINK [1] [2] ['a'])) true],
         0)) ∧
     (allOkAppend.unlinkBsonOk = false ∨ allOkAppend.unlinkOpOk = false →
      (mongo_bulk_append_fsevent allOkAppend []
          (RbhFsevent.mk RbhFseventType.RBH_FET_LINK [1] [2] ['a']) 0).1 = false ∧
      (mongo_bulk_append_fsevent allOkAppend []
          (RbhFsevent.mk RbhFseventType.RBH_FET_LINK [1] [2] ['a']) 0).2.1 = [])) :=
  ⟨by decide, by decide,
   c1_link_lowering [] (RbhFsevent.mk RbhFseventType.RBH_FET_LINK [1] [2] ['a'])
     allOkAppend 0 (by decide) (by decide)⟩

/-! ### Claim C2 -/

/-- C2: `mongo_backend_update` classification — an empty event stream
returns 0 without executing any bulk; a bulk whose execution fails with
the TransientTransactionError label returns -1 with the retry-later
errno (EAGAIN); any other driver-reported execution failure returns -1
with RBH_BACKEND_ERROR and the driver message captured (prefixed
`mongoc: `); otherwise the number of accepted events is returned. -/
theorem c2_update_classification (st : MongoEventStream) (o : MongoUpdateOracle)
    (e : Nat) (hcreate : o.bulkCreateOk = true)
    (hlower : ∀ p ∈ st.events, p.2 = allOkAppend)
    (hend : st.endErrno = none) :
    (st.events = [] →
      mongo_backend_update o st e = ⟨0, e, none, none⟩) ∧
    (st.events ≠ [] → o.exec = MongoExecResult.success →
      (mongo_backend_update o st e).ret = Int.ofNat st.events.length ∧
      (mongo_backend_update o st e).err = e ∧
      (mongo_backend_update o st e).executed.isSome = true ∧
      (mongo_backend_update o st e).backendMessage = none) ∧
    (∀ msg, st.events ≠ [] → o.exec = MongoExecResult.failure msg true →
      (mongo_backend_update o st e).ret = -1 ∧
      (mongo_backend_update o st e).err = EAGAIN ∧
      (mongo_backend_update o st e).backendMessage = some (mongocTag ++ msg)) ∧
    (∀ msg, st.events ≠ [] → o.exec = MongoExecResult.failure msg false →
      (mongo_backend_update o st e).ret = -1 ∧
      (mongo_backend_update o st e).err = RBH_BACKEND_ERROR ∧
      (mongo_backend_update o st e).backendMessage = some (mongocTag ++ msg)) := by
  obtain ⟨bulk2, hall⟩ := append_all_allOk st.events [] 0 hlower
  have hinit : mongo_bulk_init_from_fsevents [] st e =
      (Int.ofNat st.events.length, bulk2, e) := by
    simp [mongo_bulk_init_from_fsevents, hall, hend]
  refine ⟨?_, ?_, ?_, ?_⟩
  · intro hnil
    simp [mongo_backend_update, hcreate, hinit, hnil]
  · intro hne hexec
    simp [mongo_backend_update, hcreate, hinit, hne, hexec]
  · intro msg hne hexec
    simp [mongo_backend_update, hcreate, hinit, hne, hexec]
  · intro msg hne hexec
    simp [mongo_backend_update, hcreate, hinit, hne, hexec]

/-- Witness for C2: one delete event, driver reports a transient
transaction error; update returns -1 with EAGAIN and the captured
message. -/
theorem c2_update_classification_witness :
    (MongoUpdateOracle.mk true (MongoExecResult.failure ['z'] true)).bulkCreateOk
        = true ∧
    (∀ p ∈ (MongoEventStream.mk
        [(RbhFsevent.mk RbhFseventType.RBH_FET_DELETE [3] [] [], allOkAppend)]
        none).events, p.2 = allOkAppend) ∧
    (MongoEventStream.mk
        [(RbhFsevent.mk RbhFseventType.RBH_FET_DELETE [3] [] [], allOkAppend)]
        none).endErrno = none ∧
    (∀ msg,
      (MongoEventStream.mk
          [(RbhFsevent.mk RbhFseventType.RBH_FET_DELETE [3] [] [], allOkAppend)]
          none).events ≠ [] →
      (MongoUpdateOracle.mk true (MongoExecResult.failure ['z'] true)).exec =
          MongoExecResult.failure msg true →
      (mongo_backend_update
          (MongoUpdateOracle.mk true (MongoExecResult.failure ['z'] true))
          (MongoEventStream.mk
            [(RbhFsevent.mk RbhFseventType.RBH_FET_DELETE [3] [] [], allOkAppend)]
            none) 7).ret = -1 ∧
      (mongo_backend_update
          (MongoUpdateOracle.mk true (MongoExecResult.failure ['z'] true))
          (MongoEventStream.mk
            [(RbhFsevent.mk RbhFseventType.RBH_FET_DELETE [3] [] [], allOkAppend)]
            none) 7).err = EAGAIN ∧
      (mongo_backend_update
          (MongoUpdateOracle.mk true (MongoExecResult.failure ['z'] true))
          (MongoEventStream.mk
            [(RbhFsevent.mk RbhFseventType.RBH_FET_DELETE [3] [] [], allOkAppend)]
            none) 7).backendMessage = some (mongocTag ++ msg)) :=
  ⟨by decide, by decide, by decide,
   (c2_update_classification
      (MongoEventStream.mk
        [(RbhFsevent.mk RbhFseventType.RBH_FET_DELETE [3] [] [], allOkAppend)] none)
      (MongoUpdateOracle.mk true (MongoExecResult.failure ['z'] true)) 7
      (by decide) (by decide) (by decide)).2.2.1⟩

/-! ### Claim C10 -/

/-- C10: if lowering any event of the stream into a bulk sub-operation
fails, `mongo_backend_update` returns -1 and the bulk is never
executed — no partial batch reaches the store. -/
theorem c10_no_partial_batch (st : MongoEventStream) (o : MongoUpdateOracle)
    (e : Nat) (hcreate : o.bulkCreateOk = true)
    (hfail : (mongo_bulk_append_all [] st.events 0).1 = none) :
    (mongo_backend_update o st e).ret = -1 ∧
    (mongo_backend_update o st e).executed = none := by
  rcases hall : mongo_bulk_append_all [] st.events 0 with ⟨r, b1, e1⟩
  rw [hall] at hfail
  simp only at hfail
  subst hfail
  simp [mongo_backend_update, mongo_bulk_init_from_fsevents, hcreate, hall]

/-- Witness for C10: a stream whose single link event fails to lower
(the unlink update document cannot be built). -/
theorem c10_no_partial_batch_witness :
    (MongoUpdateOracle.mk true MongoExecResult.success).bulkCreateOk = true ∧
    (mongo_bulk_append_all []
      (MongoEventStream.mk
        [(RbhFsevent.mk RbhFseventType.RBH_FET_LINK [4] [5] ['b'],
          MongoAppendOracle.mk true false true true true)] none).events 0).1
      = none ∧
    ((mongo_backend_update (MongoUpdateOracle.mk true MongoExecResult.success)
        (MongoEventStream.mk
          [(RbhFsevent.mk RbhFseventType.RBH_FET_LINK [4] [5] ['b'],
            MongoAppendOracle.mk true false true true true)] none) 0).ret = -1 ∧
     (mongo_backend_update (MongoUpdateOracle.mk true MongoExecResult.success)
        (MongoEventStream.mk
          [(RbhFsevent.mk RbhFseventType.RBH_FET_LINK [4] [5] ['b'],
            MongoAppendOracle.mk true false true true true)] none) 0).executed
        = none) :=
  ⟨by decide, by decide,
   c10_no_partial_batch
     (MongoEventStream.mk
       [(RbhFsevent.mk RbhFseventType.RBH_FET_LINK [4] [5] ['b'],
         MongoAppendOracle.mk true false true true true)] none)
     (MongoUpdateOracle.mk true MongoExecResult.success) 0 (by decide) (by decide)⟩

/-! ### Claim C9 -/

/-- C9: for every entry-field mask and stat-field mask, `mongo_root`
queries with an equality filter on `parent_id` against a zero-length
binary value (`ROOT_FILTER`) and pulls one element: it returns the
unique entry whose `parent_id` is the empty identifier, and fails with
no-such-entry (ENOENT) when no such entry exists. -/
theorem c9_root_query (store : List RbhFsentry) (m1 m2 : Nat) :
    ROOT_FILTER = RbhFilter.mk RbhFilterOp.RBH_FOP_EQUAL
        RbhFilterField.RBH_FP_PARENT_ID (RbhValue.binary []) ∧
    ((∀ x ∈ store, x.parentId ≠ []) →
      mongo_root store m1 m2 = Except.error ENOENT) ∧
    (∀ r, mongo_root store m1 m2 = Except.ok r → r ∈ store ∧ r.parentId = []) ∧
    (∀ r, r ∈ store → r.parentId = [] →
      (∀ y ∈ store, y.parentId = [] → y = r) →
      mongo_root store m1 m2 = Except.ok r) := by
  have hmatch : ∀ x : RbhFsentry,
      rbh_filter_matches ROOT_FILTER x = decide (x.parentId = []) := by
    intro x; rfl
  refine ⟨rfl, ?_, ?_, ?_⟩
  · intro hnone
    have hfil : store.filter (rbh_filter_matches ROOT_FILTER) = [] := by
      rw [List.filter_eq_nil_iff]
      intro a ha
      simp [hmatch, hnone a ha]
    simp [mongo_root, rbh_backend_filter_one, hfil]
  · intro r hok
    rcases hhead : (store.filter (rbh_filter_matches ROOT_FILTER)).head? with _ | x
    · simp [mongo_root, rbh_backend_filter_one, hhead] at hok
    · have hx : x = r := by
        simpa [mongo_root, rbh_backend_filter_one, hhead] using hok
      subst hx
      have hmem := List.mem_of_mem_head? hhead
      rw [List.mem_filter] at hmem
      refine ⟨hmem.1, ?_⟩
      have := hmem.2
      rw [hmatch] at this
      simpa using this
  · intro r hr hroot huniq
    have hrf : r ∈ store.filter (rbh_filter_matches ROOT_FILTER) :=
      List.mem_filter.mpr ⟨hr, by simp [hmatch, hroot]⟩
    rcases hfil : store.filter (rbh_filter_matches ROOT_FILTER) with _ | ⟨x, rest⟩
    · rw [hfil] at hrf; cases hrf
    · have hxmem : x ∈ store.filter (rbh_filter_matches ROOT_FILTER) := by
        rw [hfil]; exact List.mem_cons_self _ _
      rw [List.mem_filter] at hxmem
      have hxroot : x.parentId = [] := by
        have := hxmem.2
        rw [hmatch] at this
        simpa using this
      have hxr : x = r := huniq x hxmem.1 hxroot
      subst hxr
      simp [mongo_root, rbh_backend_filter_one, hfil]

/-- Witness for C9 on a two-entry store whose root is the entry with
the empty parent id. -/
theorem c9_root_query_witness :
    ROOT_FILTER = RbhFilter.mk RbhFilterOp.RBH_FOP_EQUAL
        RbhFilterField.RBH_FP_PARENT_ID (RbhValue.binary []) ∧
    (∀ r, r ∈ [RbhFsentry.mk [1] [] ['r'], RbhFsentry.mk [2] [1] ['c']] →
      r.parentId = [] →
      (∀ y ∈ [RbhFsentry.mk [1] [] ['r'], RbhFsentry.mk [2] [1] ['c']],
        y.parentId = [] → y = r) →
      mongo_root [RbhFsentry.mk [1] [] ['r'], RbhFsentry.mk [2] [1] ['c']] 3 0 =
        Except.ok r) :=
  ⟨(c9_root_query [RbhFsentry.mk [1] [] ['r'], RbhFsentry.mk [2] [1] ['c']] 3 0).1,
   (c9_root_query [RbhFsentry.mk [1] [] ['r'], RbhFsentry.mk [2] [1] ['c']] 3 0).2.2.2⟩

/-! ### Claim C3 -/

/-- C3 counterexample: the claim says advancing the outer chunkify
iterator consumes nothing from the underlying stream. In the code,
`chunkify_iter_next` calls `rbh_iter_next(chunkify->subiter)` to fetch
the first element of the new chunk: on the stream [0, 1, 2] with
chunk = 2, one outer advance leaves the underlying stream changed
(one element was consumed), refuting the claim as stated. -/
theorem c3_outer_advance_counterexample :
    ¬ ((chunkify_iter_next 2 (pureScript [0, 1, 2]) 0).2.1 =
        pureScript [0, 1, 2]) := by
  decide

/-- C3 (amended): advancing the outer iterator consumes exactly one
element of the underlying stream — the element at the shared cursor
boundary, wherever a previous chunk left that cursor — and stores it as
the new chunk's `first`; the chunk's first advance yields it without
touching the stream, so the boundary element becomes the first element
of the new chunk and the remainder of an unexhausted previous chunk is
skipped. -/
theorem c3_outer_advance_boundary (α : Type) (l : List α) (k e : Nat) (a : α)
    (l2 : List α) (h : l = a :: l2) :
    chunkify_iter_next k (pureScript l) e =
      (some (ChunkIterator.mk (some a) (k - 1) false), pureScript l2, e) ∧
    (∀ (s : List (ScriptStep α)) (e2 : Nat),
      chunk_iter_next (ChunkIterator.mk (some a) (k - 1) false) s e2 =
        (some a, ChunkIterator.mk (some a) (k - 1) true, s, e2)) := by
  subst h
  exact ⟨rfl, fun s e2 => rfl⟩

/-- Witness for C3's amended statement on the stream [5, 6]. -/
theorem c3_outer_advance_boundary_witness :
    ([5, 6] : List Nat) = 5 :: [6] ∧
    (chunkify_iter_next 2 (pureScript [5, 6]) 0 =
      (some (ChunkIterator.mk (some 5) 1 false), pureScript [6], 0) ∧
     (∀ (s : List (ScriptStep Nat)) (e2 : Nat),
       chunk_iter_next (ChunkIterator.mk (some 5) 1 false) s e2 =
         (some 5, ChunkIterator.mk (some 5) 1 true, s, e2))) :=
  ⟨rfl, c3_outer_advance_boundary Nat [5, 6] 2 0 5 [6] rfl⟩

/-! ### Claim C6 -/

/-- C6 evaluation at the failing input: source [10, 20]; sibling A
advances while the push onto B's queue fails (out of memory), then B
advances (all pushes succeed), then A advances. The first A call
returns the element (no failure is signalled to A's caller), B's call
consumes its pending `next` slot AND re-shares that element back onto
A's queue, so A observes 10 twice: an element is duplicated, contrary
to the claim. -/
theorem c6_tee_share_failure_duplication :
    (runTee [(true, true, false), (false, true, true), (true, true, true)]
      (freshTee [10, 20]) 0).1 = [10, 10] ∧
    (runTee [(true, true, false), (false, true, true), (true, true, true)]
      (freshTee [10, 20]) 0).2.1 = [10] := by
  decide

/-! ### Claim C7 -/

/-- errno discipline of the read-and-share tail of `tee_iter_next`:
returning an element restores the saved errno; returning NULL leaves
ENODATA or the underlying failure. -/
theorem tee_read_phase_errno (α : Type) (ok2 : Bool) (self other : TeeSide α)
    (sub : List (ScriptStep α)) (save : Nat) (hwf : wf_head sub = true) :
    ((tee_read_phase ok2 self other sub save).1.isSome = true →
      (tee_read_phase ok2 self other sub save).2.2.2.2 = save) ∧
    ((tee_read_phase ok2 self other sub save).1 = none →
      (tee_read_phase ok2 self other sub save).2.2.2.2 = ENODATA ∨
      (∃ f rest, sub = ScriptStep.fault f :: rest ∧ f ≠ 0 ∧
        (tee_read_phase ok2 self other sub save).2.2.2.2 = f)) := by
  rcases hnxt : self.next with _ | x
  · cases sub with
    | nil =>
      constructor
      · intro hsome
        simp [tee_read_phase, _tee_iter_next, hnxt, script_next, ENODATA] at hsome
      · intro _
        left
        simp [tee_read_phase, _tee_iter_next, hnxt, script_next, ENODATA]
    | cons s rest =>
      cases s with
      | yield a =>
        constructor
        · intro _
          cases ok2 <;>
            simp [tee_read_phase, _tee_iter_next, hnxt, script_next,
              rbh_queue_push]
        · intro hnone
          cases ok2 <;>
            simp [tee_read_phase, _tee_iter_next, hnxt, script_next,
              rbh_queue_push] at hnone
      | fault f =>
        have hf : f ≠ 0 := by simpa [wf_head] using hwf
        constructor
        · intro hsome
          simp [tee_read_phase, _tee_iter_next, hnxt, script_next, hf] at hsome
        · intro _
          right
          exact ⟨f, rest, rfl, hf, by
            simp [tee_read_phase, _tee_iter_next, hnxt, script_next, hf]⟩
  · constructor
    · intro _
      cases ok2 <;>
        simp [tee_read_phase, _tee_iter_next, hnxt, rbh_queue_push]
    · intro hnone
      cases ok2 <;>
        simp [tee_read_phase, _tee_iter_next, hnxt, rbh_queue_push] at hnone

/-- C7: for the array iterator, chunkify's chunk iterators and the tee
siblings: a `next` call that yields an element leaves the
caller-visible errno exactly as it was; a call that yields nothing
leaves errno indicating either no-more-data (ENODATA) or the actual
failure (the underlying stream's failure code, or ENOMEM for the tee's
failed deferred share), never both. For chunk iterators this holds for
chunks as chunkify builds them (a not-yet-consumed `first` is present)
over a well-behaved stream; for tee siblings over a queue of shared
(non-NULL) elements and a well-behaved stream. -/
theorem c7_errno_discipline (α : Type) :
    (∀ (it : ArrayIterator α) (e : Nat),
      ((array_iter_next it e).1.isSome = true → (array_iter_next it e).2.2 = e) ∧
      ((array_iter_next it e).1 = none → (array_iter_next it e).2.2 = ENODATA)) ∧
    (∀ (c : ChunkIterator α) (sub : List (ScriptStep α)) (e : Nat),
      wf_head sub = true → (c.once || c.first.isSome) = true →
      (((chunk_iter_next c sub e).1.isSome = true →
          (chunk_iter_next c sub e).2.2.2 = e) ∧
       ((chunk_iter_next c sub e).1 = none →
          (chunk_iter_next c sub e).2.2.2 = ENODATA ∨
          (∃ f rest, sub = ScriptStep.fault f :: rest ∧ f ≠ 0 ∧
            (chunk_iter_next c sub e).2.2.2 = f)))) ∧
    (∀ (self other : TeeSide α) (sub : List (ScriptStep α)) (e : Nat)
        (ok1 ok2 : Bool),
      wf_head sub = true → self.queue.all Option.isSome = true →
      (((tee_iter_next ok1 ok2 self other sub e).1.isSome = true →
          (tee_iter_next ok1 ok2 self other sub e).2.2.2.2 = e) ∧
       ((tee_iter_next ok1 ok2 self other sub e).1 = none →
          (tee_iter_next ok1 ok2 self other sub e).2.2.2.2 = ENODATA ∨
          (tee_iter_next ok1 ok2 self other sub e).2.2.2.2 = ENOMEM ∨
          (∃ f rest, sub = ScriptStep.fault f :: rest ∧ f ≠ 0 ∧
            (tee_iter_next ok1 ok2 self other sub e).2.2.2.2 = f)))) := by
  refine ⟨fun it e => ?_, fun c sub e hwf hfs => ?_,
    fun self other sub e ok1 ok2 hwf hq => ?_⟩
  · unfold array_iter_next
    split
    · exact ⟨fun _ => rfl, fun h => by simp at h⟩
    · exact ⟨fun h => by simp at h, fun _ => rfl⟩
  · cases honce : c.once with
    | false =>
      have hx : c.first.isSome = true := by simpa [honce] using hfs
      rcases Option.isSome_iff_exists.mp hx with ⟨x, hxeq⟩
      constructor
      · intro _
        simp [chunk_iter_next, honce]
      · intro hnone
        simp [chunk_iter_next, honce, hxeq] at hnone
    | true =>
      rcases hcnt : c.count with _ | n
      · constructor
        · intro hsome
          simp [chunk_iter_next, honce, hcnt] at hsome
        · intro _
          left
          simp [chunk_iter_next, honce, hcnt]
      · cases sub with
        | nil =>
          constructor
          · intro hsome
            simp [chunk_iter_next, honce, hcnt, script_next] at hsome
          · intro _
            left
            simp [chunk_iter_next, honce, hcnt, script_next, ENODATA]
        | cons s rest =>
          cases s with
          | yield a =>
            constructor
            · intro _
              simp [chunk_iter_next, honce, hcnt, script_next]
            · intro hnone
              simp [chunk_iter_next, honce, hcnt, script_next] at hnone
          | fault f =>
            have hf : f ≠ 0 := by simpa [wf_head] using hwf
            constructor
            · intro hsome
              simp [chunk_iter_next, honce, hcnt, script_next, hf] at hsome
            · intro _
              right
              exact ⟨f, rest, rfl, hf, by
                simp [chunk_iter_next, honce, hcnt, script_next, hf]⟩
  · rcases hqeq : self.queue with _ | ⟨x, qrest⟩
    · rcases hon : other.next with _ | p
      · have hrp := tee_read_phase_errno α ok2 self other sub e hwf
        constructor
        · intro hsome
          have h1 := hrp.1
          simpa [tee_iter_next, hqeq, hon] using h1
            (by simpa [tee_iter_next, hqeq, hon] using hsome)
        · intro hnone
          have h2 := hrp.2 (by simpa [tee_iter_next, hqeq, hon] using hnone)
          rcases h2 with h2 | ⟨f, rest, hsub, hf, hval⟩
          · left; simpa [tee_iter_next, hqeq, hon] using h2
          · right; right
            exact ⟨f, rest, hsub, hf, by
              simpa [tee_iter_next, hqeq, hon] using hval⟩
      · cases ok1 with
        | false =>
          constructor
          · intro hsome
            simp [tee_iter_next, hqeq, hon, rbh_queue_push] at hsome
          · intro _
            right; left
            simp [tee_iter_next, hqeq, hon, rbh_queue_push]
        | true =>
          have hrp := tee_read_phase_errno α ok2 self
            (TeeSide.mk (other.queue ++ [some p]) none) sub e hwf
          constructor
          · intro hsome
            have h1 := hrp.1
            simpa [tee_iter_next, hqeq, hon, rbh_queue_push] using h1
              (by simpa [tee_iter_next, hqeq, hon, rbh_queue_push] using hsome)
          · intro hnone
            have h2 := hrp.2
              (by simpa [tee_iter_next, hqeq, hon, rbh_queue_push] using hnone)
            rcases h2 with h2 | ⟨f, rest, hsub, hf, hval⟩
            · left; simpa [tee_iter_next, hqeq, hon, rbh_queue_push] using h2
            · right; right
              exact ⟨f, rest, hsub, hf, by
                simpa [tee_iter_next, hqeq, hon, rbh_queue_push] using hval⟩
    · have hx : x.isSome = true := by
        rw [hqeq, List.all_cons, Bool.and_eq_true] at hq
        exact hq.1
      constructor
      · intro _
        simp [tee_iter_next, hqeq]
      · intro hnone
        rw [show (tee_iter_next ok1 ok2 self other sub e).1 = x by
          simp [tee_iter_next, hqeq]] at hnone
        rw [hnone] at hx
        cases hx

/-- Witness for C7: concrete instances of all three parts with the
hypotheses discharged. -/
theorem c7_errno_discipline_witness :
    wf_head (pureScript [4]) = true ∧
    ((ChunkIterator.mk (some 8) 1 false).once ||
      (ChunkIterator.mk (some 8) 1 false).first.isSome) = true ∧
    ([some 3] : List (Option Nat)).all Option.isSome = true ∧
    (((array_iter_next (ArrayIterator.mk [7] 0) 9).1.isSome = true →
        (array_iter_next (ArrayIterator.mk [7] 0) 9).2.2 = 9) ∧
     ((array_iter_next (ArrayIterator.mk [7] 0) 9).1 = none →
        (array_iter_next (ArrayIterator.mk [7] 0) 9).2.2 = ENODATA)) ∧
    (((chunk_iter_next (ChunkIterator.mk (some 8) 1 false) (pureScript [4]) 9).1.isSome
        = true →
      (chunk_iter_next (ChunkIterator.mk (some 8) 1 false) (pureScript [4]) 9).2.2.2
        = 9) ∧
     ((chunk_iter_next (ChunkIterator.mk (some 8) 1 false) (pureScript [4]) 9).1
        = none →
      (chunk_iter_next (ChunkIterator.mk (some 8) 1 false) (pureScript [4]) 9).2.2.2
          = ENODATA ∨
      (∃ f rest, pureScript [4] = ScriptStep.fault f :: rest ∧ f ≠ 0 ∧
        (chunk_iter_next (ChunkIterator.mk (some 8) 1 false)
          (pureScript [4]) 9).2.2.2 = f))) ∧
    (((tee_iter_next true true (TeeSide.mk [some 3] none) (TeeSide.mk [] none)
          (pureScript [4]) 9).1.isSome = true →
      (tee_iter_next true true (TeeSide.mk [some 3] none) (TeeSide.mk [] none)
          (pureScript [4]) 9).2.2.2.2 = 9) ∧
     ((tee_iter_next true true (TeeSide.mk [some 3] none) (TeeSide.mk [] none)
          (pureScript [4]) 9).1 = none →
      (tee_iter_next true true (TeeSide.mk [some 3] none) (TeeSide.mk [] none)
          (pureScript [4]) 9).2.2.2.2 = ENODATA ∨
      (tee_iter_next true true (TeeSide.mk [some 3] none) (TeeSide.mk [] none)
          (pureScript [4]) 9).2.2.2.2 = ENOMEM ∨
      (∃ f rest, pureScript [4] = ScriptStep.fault f :: rest ∧ f ≠ 0 ∧
        (tee_iter_next true true (TeeSide.mk [some 3] none) (TeeSide.mk [] none)
          (pureScript [4]) 9).2.2.2.2 = f))) :=
  ⟨by decide, by decide, by decide,
   (c7_errno_discipline Nat).1 (ArrayIterator.mk [7] 0) 9,
   (c7_errno_discipline Nat).2.1 (ChunkIterator.mk (some 8) 1 false)
     (pureScript [4]) 9 (by decide) (by decide),
   (c7_errno_discipline Nat).2.2 (TeeSide.mk [some 3] none) (TeeSide.mk [] none)
     (pureScript [4]) 9 true true (by decide) (by decide)⟩

/-! ### Claim C4 -/

/-- Unfolding `pureScript` on a cons, as a rewrite rule. -/
theorem pureScript_cons (α : Type) (a : α) (l : List α) :
    pureScript (a :: l) = ScriptStep.yield a :: pureScript l := rfl

/-- Unfolding `pureScript` on nil, as a rewrite rule. -/
theorem pureScript_nil (α : Type) : pureScript ([] : List α) = [] := rfl

/-- Draining an already-started chunk over the pure stream of `m`
yields the next `count` elements of `m` (or all of `m` when fewer
remain) and ends with ENODATA, leaving the shared cursor just past the
consumed elements. -/
theorem drain_chunk_pure (α : Type) (cnt : Nat) :
    ∀ (m : List α) (fst : Option α) (fuel e : Nat), cnt + 1 ≤ fuel →
      drain_chunk fuel (ChunkIterator.mk fst cnt true) (pureScript m) e =
        (m.take cnt, pureScript (m.drop cnt), ENODATA) := by
  induction cnt with
  | zero =>
    intro m fst fuel e hf
    cases fuel with
    | zero => omega
    | succ fuel => simp [drain_chunk, chunk_iter_next]
  | succ n ih =>
    intro m fst fuel e hf
    cases fuel with
    | zero => omega
    | succ fuel =>
      cases m with
      | nil =>
        simp [drain_chunk, chunk_iter_next, pureScript_nil α, script_next, ENODATA]
      | cons b m2 =>
        have hrec := ih m2 fst fuel e (by omega)
        simp [drain_chunk, chunk_iter_next, pureScript_cons α, script_next, hrec]

/-- Draining a fresh chunk (as `chunkify_iter_next` builds it, with a
prefetched first element) yields that element followed by the next
`cnt` stream elements, then ends with ENODATA. -/
theorem drain_chunk_fresh (α : Type) (a : α) (m : List α) (cnt fuel e : Nat)
    (hf : cnt + 2 ≤ fuel) :
    drain_chunk fuel (ChunkIterator.mk (some a) cnt false) (pureScript m) e =
      (a :: m.take cnt, pureScript (m.drop cnt), ENODATA) := by
  cases fuel with
  | zero => omega
  | succ fuel =>
    have h1 := drain_chunk_pure α cnt m (some a) fuel e (by omega)
    simp [drain_chunk, chunk_iter_next, h1]

/-- Running chunkify to completion over the pure stream of `l`,
draining each chunk before requesting the next: the chunks concatenate
back to `l` and each has at most `k` elements. -/
theorem run_chunkify_pure (α : Type) (k : Nat) (hk : 0 < k) :
    ∀ (fuel : Nat) (l : List α) (e : Nat), l.length + 1 ≤ fuel →
      ∃ css e2, run_chunkify fuel k (pureScript l) e = (css, [], e2) ∧
        css.flatten = l ∧ ∀ cs ∈ css, cs.length ≤ k := by
  intro fuel
  induction fuel with
  | zero => intro l e h; exact absurd h (by omega)
  | succ fuel ih =>
    intro l e hlen
    cases l with
    | nil =>
      refine ⟨[], ENODATA, ?_, rfl, by simp⟩
      simp [run_chunkify, chunkify_iter_next, pureScript, script_next, ENODATA]
    | cons a l2 =>
      have hchy : chunkify_iter_next k (pureScript (a :: l2)) e =
          (some (ChunkIterator.mk (some a) (k - 1) false), pureScript l2, e) := rfl
      have hdr := drain_chunk_fresh α a l2 (k - 1) (k + 1) e (by omega)
      have hd : (l2.drop (k - 1)).length = l2.length - (k - 1) :=
        List.length_drop _ _
      obtain ⟨css, e2, hrun, hjoin, hlens⟩ :=
        ih (l2.drop (k - 1)) ENODATA (by
          simp only [List.length_cons] at hlen
          omega)
      refine ⟨(a :: l2.take (k - 1)) :: css, e2, ?_, ?_, ?_⟩
      · simp [run_chunkify, hchy, hdr, hrun]
      · rw [show ((a :: l2.take (k - 1)) :: css).flatten =
            (a :: l2.take (k - 1)) ++ css.flatten from rfl, hjoin,
          List.cons_append, List.take_append_drop]
      · intro cs hcs
        rcases List.mem_cons.mp hcs with rfl | hcs
        · have := List.length_take (k - 1) l2
          simp only [List.length_cons, this]
          omega
        · exact hlens cs hcs

/-- C4: for every underlying stream of `n` elements and every chunk
size `k > 0`, when each chunk is exhausted before the next one is
requested, every chunk holds at most `k` elements and the
concatenation of all chunks is exactly the original sequence. -/
theorem c4_chunkify_totality (α : Type) (l : List α) (k e : Nat) (hk : 0 < k) :
    ∃ css e2, run_chunkify (l.length + 1) k (pureScript l) e = (css, [], e2) ∧
      css.flatten = l ∧ ∀ cs ∈ css, cs.length ≤ k :=
  run_chunkify_pure α k hk (l.length + 1) l e (le_refl _)

/-- Witness for C4: the spec's S4 scenario, source [1, 2, 3, 4, 5] with
chunk = 2. -/
theorem c4_chunkify_totality_witness :
    0 < 2 ∧
    ∃ css e2, run_chunkify 6 2 (pureScript [1, 2, 3, 4, 5]) 0 = (css, [], e2) ∧
      css.flatten = [1, 2, 3, 4, 5] ∧ ∀ cs ∈ css, cs.length ≤ 2 :=
  ⟨by decide, c4_chunkify_totality Nat [1, 2, 3, 4, 5] 2 0 (by decide)⟩

/-! ### Claim C5 -/

/-- The empty slice. -/
theorem sliceQ_self (α : Type) (l : List α) (i : Nat) : sliceQ l i i = [] := by
  simp [sliceQ]

/-- Peeling the first element off a non-empty slice. -/
theorem sliceQ_cons (α : Type) (l : List α) (i j : Nat) (hij : i < j)
    (hi : i < l.length) :
    sliceQ l i j = some (l.get ⟨i, hi⟩) :: sliceQ l (i + 1) j := by
  unfold sliceQ
  rw [List.drop_eq_getElem_cons hi]
  have h1 : j - i = (j - (i + 1)) + 1 := by omega
  rw [h1, List.take_succ_cons, List.map_cons]
  rfl

/-- Extending a slice on the right by one element. -/
theorem sliceQ_snoc (α : Type) (l : List α) (i j : Nat) (hij : i ≤ j)
    (hj : j < l.length) :
    sliceQ l i (j + 1) = sliceQ l i j ++ [some (l.get ⟨j, hj⟩)] := by
  unfold sliceQ
  have h1 : j + 1 - i = (j - i) + 1 := by omega
  rw [h1, List.take_succ]
  have h2 : (l.drop i)[j - i]? = some (l.get ⟨j, hj⟩) := by
    rw [List.getElem?_drop]
    have h3 : i + (j - i) = j := by omega
    rw [h3]
    exact List.getElem?_eq_getElem hj
  rw [h2]
  simp

/-- The pure stream of a suffix, peeled by one element. -/
theorem pureScript_drop_cons (α : Type) (l : List α) (n : Nat) (h : n < l.length) :
    pureScript (l.drop n) =
      ScriptStep.yield (l.get ⟨n, h⟩) :: pureScript (l.drop (n + 1)) := by
  unfold pureScript
  rw [List.drop_eq_getElem_cons h, List.map_cons]
  rfl

/-- Dropping a whole prefix leaves nothing. -/
theorem take_drop_self (α : Type) (l : List α) (n : Nat) : (l.take n).drop n = [] := by
  apply List.drop_eq_nil_of_le
  rw [List.length_take]
  omega

/-- Peeling one element off a partially-dropped prefix. -/
theorem take_drop_cons (α : Type) (l : List α) (n m : Nat) (hnm : n < m)
    (hn : n < l.length) :
    (l.take m).drop n = l.get ⟨n, hn⟩ :: (l.take m).drop (n + 1) := by
  have hlt : n < (l.take m).length := by rw [List.length_take]; omega
  rw [List.drop_eq_getElem_cons hlt]
  congr 1
  exact List.getElem_take _

/-- One all-successful `tee_iter_next` call on the sibling that has
observed `ns` elements while the other has observed `no`, when the
stream still has an element for it: the call yields element `ns` of
the source; if the own queue was non-empty it is popped, otherwise the
element is read from the shared stream and also appended to the other
sibling's queue. -/
theorem tee_step_ok_lt (α : Type) (l : List α) (ns no e : Nat)
    (_ho : no ≤ l.length) (h : ns < l.length) :
    tee_iter_next true true
      (TeeSide.mk (sliceQ l ns (max ns no)) none)
      (TeeSide.mk (sliceQ l no (max ns no)) none)
      (pureScript (l.drop (max ns no))) e =
    (some (l.get ⟨ns, h⟩),
     TeeSide.mk (sliceQ l (ns + 1) (max (ns + 1) no)) none,
     TeeSide.mk (sliceQ l no (max (ns + 1) no)) none,
     pureScript (l.drop (max (ns + 1) no)), e) := by
  rcases Nat.lt_or_ge ns no with hlt | hge
  · have hmax1 : max ns no = no := Nat.max_eq_right (Nat.le_of_lt hlt)
    have hmax2 : max (ns + 1) no = no := Nat.max_eq_right hlt
    rw [hmax1, hmax2, sliceQ_cons α l ns no hlt h]
    simp [tee_iter_next]
  · have hmax1 : max ns no = ns := Nat.max_eq_left hge
    have hmax2 : max (ns + 1) no = ns + 1 := Nat.max_eq_left (by omega)
    rw [hmax1, hmax2, pureScript_drop_cons α l ns h,
      sliceQ_snoc α l no ns hge h]
    simp [tee_iter_next, tee_read_phase, _tee_iter_next, script_next,
      rbh_queue_push, sliceQ_self]

/-- One all-successful `tee_iter_next` call on a sibling that has
already observed the whole source: NULL with ENODATA, state
unchanged. -/
theorem tee_step_ok_ge (α : Type) (l : List α) (ns no e : Nat)
    (hs : ns ≤ l.length) (ho : no ≤ l.length) (h : l.length ≤ ns) :
    tee_iter_next true true
      (TeeSide.mk (sliceQ l ns (max ns no)) none)
      (TeeSide.mk (sliceQ l no (max ns no)) none)
      (pureScript (l.drop (max ns no))) e =
    (none,
     TeeSide.mk (sliceQ l ns (max ns no)) none,
     TeeSide.mk (sliceQ l no (max ns no)) none,
     pureScript (l.drop (max ns no)), ENODATA) := by
  have hmax : max ns no = ns := Nat.max_eq_left (by omega)
  have hdrop : l.drop ns = [] := List.drop_eq_nil_of_le (by omega)
  rw [hmax, hdrop, sliceQ_self]
  simp [tee_iter_next, tee_read_phase, _tee_iter_next, script_next,
    pureScript_nil, ENODATA]

/-- Characterization of every all-successful interleaving: from a
state in which the siblings have observed `na` and `nb` elements, the
run yields the next slices of the source to each sibling and leaves
the state in the same shape. -/
theorem runTee_ok (α : Type) (l : List α) (calls : List Bool) :
    ∀ (na nb e : Nat), na ≤ l.length → nb ≤ l.length →
    ∃ na2 nb2 e2, na ≤ na2 ∧ nb ≤ nb2 ∧ na2 ≤ l.length ∧ nb2 ≤ l.length ∧
      runTee (calls.map (fun w => (w, true, true)))
        (TeeState.mk (pureScript (l.drop (max na nb)))
          (TeeSide.mk (sliceQ l na (max na nb)) none)
          (TeeSide.mk (sliceQ l nb (max na nb)) none)) e =
      ((l.take na2).drop na, (l.take nb2).drop nb,
       TeeState.mk (pureScript (l.drop (max na2 nb2)))
         (TeeSide.mk (sliceQ l na2 (max na2 nb2)) none)
         (TeeSide.mk (sliceQ l nb2 (max na2 nb2)) none), e2) := by
  induction calls with
  | nil =>
    intro na nb e hna hnb
    refine ⟨na, nb, e, le_refl _, le_refl _, hna, hnb, ?_⟩
    simp [runTee, take_drop_self]
  | cons w rest ih =>
    intro na nb e hna hnb
    cases w with
    | true =>
      rcases Nat.lt_or_ge na l.length with h | h
      · have hstep := tee_step_ok_lt α l na nb e hnb h
        have hts : teeStep true true true
            (TeeState.mk (pureScript (l.drop (max na nb)))
              (TeeSide.mk (sliceQ l na (max na nb)) none)
              (TeeSide.mk (sliceQ l nb (max na nb)) none)) e =
            (some (l.get ⟨na, h⟩),
             TeeState.mk (pureScript (l.drop (max (na + 1) nb)))
               (TeeSide.mk (sliceQ l (na + 1) (max (na + 1) nb)) none)
               (TeeSide.mk (sliceQ l nb (max (na + 1) nb)) none), e) := by
          simp [teeStep, hstep]
        obtain ⟨na2, nb2, e2, h1, h2, h3, h4, hrun⟩ := ih (na + 1) nb e (by omega) hnb
        refine ⟨na2, nb2, e2, by omega, h2, h3, h4, ?_⟩
        simp [runTee, hts, hrun, take_drop_cons α l na na2 (by omega) h]
      · have hstep := tee_step_ok_ge α l na nb e hna hnb h
        have hts : teeStep true true true
            (TeeState.mk (pureScript (l.drop (max na nb)))
              (TeeSide.mk (sliceQ l na (max na nb)) none)
              (TeeSide.mk (sliceQ l nb (max na nb)) none)) e =
            (none,
             TeeState.mk (pureScript (l.drop (max na nb)))
               (TeeSide.mk (sliceQ l na (max na nb)) none)
               (TeeSide.mk (sliceQ l nb (max na nb)) none), ENODATA) := by
          simp [teeStep, hstep]
        obtain ⟨na2, nb2, e2, h1, h2, h3, h4, hrun⟩ := ih na nb ENODATA hna hnb
        refine ⟨na2, nb2, e2, h1, h2, h3, h4, ?_⟩
        simp [runTee, hts, hrun]
    | false =>
      rcases Nat.lt_or_ge nb l.length with h | h
      · have hstep := tee_step_ok_lt α l nb na e hna h
        rw [Nat.max_comm nb na, Nat.max_comm (nb + 1) na] at hstep
        have hts : teeStep false true true
            (TeeState.mk (pureScript (l.drop (max na nb)))
              (TeeSide.mk (sliceQ l na (max na nb)) none)
              (TeeSide.mk (sliceQ l nb (max na nb)) none)) e =
            (some (l.get ⟨nb, h⟩),
             TeeState.mk (pureScript (l.drop (max na (nb + 1))))
               (TeeSide.mk (sliceQ l na (max na (nb + 1))) none)
               (TeeSide.mk (sliceQ l (nb + 1) (max na (nb + 1))) none), e) := by
          simp [teeStep, hstep]
        obtain ⟨na2, nb2, e2, h1, h2, h3, h4, hrun⟩ := ih na (nb + 1) e hna (by omega)
        refine ⟨na2, nb2, e2, h1, by omega, h3, h4, ?_⟩
        simp [runTee, hts, hrun, take_drop_cons α l nb nb2 (by omega) h]
      · have hstep := tee_step_ok_ge α l nb na e hnb hna h
        rw [Nat.max_comm nb na] at hstep
        have hts : teeStep false true true
            (TeeState.mk (pureScript (l.drop (max na nb)))
              (TeeSide.mk (sliceQ l na (max na nb)) none)
              (TeeSide.mk (sliceQ l nb (max na nb)) none)) e =
            (none,
             TeeState.mk (pureScript (l.drop (max na nb)))
               (TeeSide.mk (sliceQ l na (max na nb)) none)
               (TeeSide.mk (sliceQ l nb (max na nb)) none), ENODATA) := by
          simp [teeStep, hstep]
        obtain ⟨na2, nb2, e2, h1, h2, h3, h4, hrun⟩ := ih na nb ENODATA hna hnb
        refine ⟨na2, nb2, e2, h1, h2, h3, h4, ?_⟩
        simp [runTee, hts, hrun]

/-- C5: for every source and every interleaving of all-successful
`next` calls on the two siblings of a fresh tee, each sibling observes
exactly a prefix of the source, in production order; and whenever the
siblings have observed `n` and `m` elements, the lagging sibling's
queue holds exactly the source elements between the two positions
(positions `m+1..n` when `m ≤ n`) while the leading sibling's queue is
empty, and no element is parked in a `next` slot. -/
theorem c5_tee_equivalence (α : Type) (l : List α) (calls : List Bool) (e : Nat) :
    ∃ n m st2 e2, n ≤ l.length ∧ m ≤ l.length ∧
      runTee (calls.map (fun w => (w, true, true))) (freshTee l) e =
        (l.take n, l.take m, st2, e2) ∧
      st2.a.next = none ∧ st2.b.next = none ∧
      st2.a.queue = ((l.drop n).take (max n m - n)).map some ∧
      st2.b.queue = ((l.drop m).take (max n m - m)).map some := by
  obtain ⟨na2, nb2, e2, _, _, h3, h4, hrun⟩ :=
    runTee_ok α l calls 0 0 e (Nat.zero_le _) (Nat.zero_le _)
  refine ⟨na2, nb2,
    TeeState.mk (pureScript (l.drop (max na2 nb2)))
      (TeeSide.mk (sliceQ l na2 (max na2 nb2)) none)
      (TeeSide.mk (sliceQ l nb2 (max na2 nb2)) none), e2,
    h3, h4, ?_, rfl, rfl, rfl, rfl⟩
  simpa [freshTee, sliceQ] using hrun

/-- Witness for C5: the spec's S5 interleaving on source [1, 2, 3]
(A, A, B, A, B, B). -/
theorem c5_tee_equivalence_witness :
    ∃ n m st2 e2, n ≤ ([1, 2, 3] : List Nat).length ∧
      m ≤ ([1, 2, 3] : List Nat).length ∧
      runTee ([true, true, false, true, false, false].map
          (fun w => (w, true, true))) (freshTee [1, 2, 3]) 0 =
        ([1, 2, 3].take n, [1, 2, 3].take m, st2, e2) ∧
      st2.a.next = none ∧ st2.b.next = none ∧
      st2.a.queue = (([1, 2, 3].drop n).take (max n m - n)).map some ∧
      st2.b.queue = (([1, 2, 3].drop m).take (max n m - m)).map some :=
  c5_tee_equivalence Nat [1, 2, 3] [true, true, false, true, false, false] 0
